import Mathlib

/-!
# NoteVault: note form, note store and note card

A shallow embedding of the logic of `src/App.jsx`, `src/components/NoteForm.jsx`
and `src/components/NoteItem.jsx`.

* React state is an explicit record; every handler is a function from the state of the
  render it closes over to the state after the handler's `set...` calls.
* `onAddNote(note)` calls are collected in a list, so "called exactly once" is a statement
  about that list.
* The asynchronous `FileReader` callbacks of `handleFileChange` are explicit events: every
  invocation of `handleFileChange` that passes validation leaves behind a `Batch`, the
  closure its `onloadend` callbacks share (the captured `filePreviews`, the mutable
  `newPreviews` array and the readers still in flight).
* Strings are sequences of UTF-16 code units, so `length`, `substring` and `trim` count
  what JavaScript counts.
-/

namespace NoteVault

/-! ## JavaScript strings -/

/-- A JavaScript string: its sequence of UTF-16 code units. -/
abbrev JsString := List Nat

/-- Code units of a string literal of the program text (every literal used is ASCII). -/
def jsLit (s : String) : JsString := s.data.map Char.toNat

/-- Truthiness of a string value: only the empty string is falsy. -/
def truthy (s : JsString) : Bool := !s.isEmpty

/-- Truthiness of a value that is a string or `null`. -/
def truthyData : Option JsString → Bool
  | none => false
  | some s => truthy s

/-- The operator `x || null` on a value that is a string, `null` or `undefined`. -/
def orNull : Option JsString → Option JsString
  | none => none
  | some s => if truthy s then some s else none

/-- Code units removed by `String.prototype.trim`: ECMAScript WhiteSpace and
LineTerminator. -/
def isTrimChar (c : Nat) : Bool :=
  c == 0x0009 || c == 0x000A || c == 0x000B || c == 0x000C || c == 0x000D ||
  c == 0x0020 || c == 0x00A0 || c == 0x1680 || (0x2000 ≤ c && c ≤ 0x200A) ||
  c == 0x2028 || c == 0x2029 || c == 0x202F || c == 0x205F || c == 0x3000 ||
  c == 0xFEFF

/-- The method `String.prototype.trim`. -/
def jsTrim (s : JsString) : JsString :=
  ((s.dropWhile isTrimChar).reverse.dropWhile isTrimChar).reverse

/-- The method `String.prototype.startsWith` (position 0). -/
def startsWith : JsString → JsString → Bool
  | _, [] => true
  | [], _ :: _ => false
  | c :: s, p :: ps => c == p && startsWith s ps

/-- The callback form `xs.map((x, index) => f(x, index))`, indices counted from `i`. -/
def mapWithIndex {α β : Type} (f : α → Nat → β) : Nat → List α → List β
  | _, [] => []
  | i, x :: xs => f x i :: mapWithIndex f (i + 1) xs

/-- The callback form `xs.filter((x, index) => p(x, index))`, indices counted from `i`. -/
def filterWithIndex {α : Type} (p : α → Nat → Bool) : Nat → List α → List α
  | _, [] => []
  | i, x :: xs =>
    if p x i then x :: filterWithIndex p (i + 1) xs else filterWithIndex p (i + 1) xs

/-! ## NoteForm.jsx -/

/-- A browser `File`, as far as the form reads it. -/
structure File where
  name : JsString
  type : JsString
  size : Nat
deriving DecidableEq, Repr

/-- An entry of the `filePreviews` state. -/
structure Preview where
  name : JsString
  type : JsString
  data : Option JsString
deriving DecidableEq, Repr

/-- An entry of `note.files`. -/
structure Attachment where
  name : JsString
  type : JsString
  size : Nat
  data : Option JsString
deriving DecidableEq, Repr

/-- The object `handleSubmit` passes to `onAddNote`. -/
structure NoteRequest where
  title : JsString
  description : JsString
  files : List Attachment
deriving DecidableEq, Repr

/-- The five `useState` cells of `NoteForm`. -/
structure FormState where
  title : JsString
  description : JsString
  formError : JsString
  attachedFiles : List File
  filePreviews : List Preview
deriving DecidableEq, Repr

/-- The state of a freshly mounted form. -/
def FormState.initial : FormState :=
  { title := [], description := [], formError := [], attachedFiles := [], filePreviews := [] }

/-- What the `onloadend` callbacks of one `handleFileChange` invocation share: the
`filePreviews` value the handler closed over, its local `newPreviews` array, and the files
whose `FileReader` has not fired `loadend` yet. -/
structure Batch where
  filePreviews : List Preview
  newPreviews : List Preview
  readers : List File
deriving DecidableEq, Repr

/-- The locals of the `files.forEach` loop in `handleFileChange`. -/
structure Processing where
  newFiles : List File
  newPreviews : List Preview
  readers : List File
deriving DecidableEq, Repr

/-- The size limit `5 * 1024 * 1024`. -/
def MAX_FILE_SIZE : Nat := 5 * 1024 * 1024

/-- One iteration of the `files.forEach` loop: the file is pushed on `newFiles`; an image
gets a reader started, any other file gets a preview with `data: null` pushed at once. -/
def processFile (acc : Processing) (file : File) : Processing :=
  let acc := { acc with newFiles := acc.newFiles ++ [file] }
  if startsWith file.type (jsLit "image/") then
    { acc with readers := acc.readers ++ [file] }
  else
    { acc with
      newPreviews := acc.newPreviews ++ [{ name := file.name, type := file.type, data := none }] }

/-- The handler `handleFileChange`, on the selected `files`: the next form state and, when
the selection passes both checks, the closure left to the readers it started. -/
def handleFileChange (s : FormState) (files : List File) : FormState × Option Batch :=
  if s.attachedFiles.length + files.length > 5 then
    ({ s with formError := jsLit "Maximum 5 files allowed" }, none)
  else
    let oversizedFiles := files.filter (fun file => decide (file.size > MAX_FILE_SIZE))
    if oversizedFiles.length > 0 then
      ({ s with formError := jsLit "Each file must be less than 5MB" }, none)
    else
      let p := files.foldl processFile { newFiles := [], newPreviews := [], readers := [] }
      let s1 := { s with attachedFiles := s.attachedFiles ++ p.newFiles }
      let s2 :=
        if p.newPreviews.any (fun q => !truthyData q.data) then
          { s1 with
            filePreviews := s.filePreviews ++ p.newPreviews.filter (fun q => !truthyData q.data) }
        else s1
      (s2, some { filePreviews := s.filePreviews, newPreviews := p.newPreviews,
                  readers := p.readers })

/-- The callback `reader.onloadend` for `file`, with `result` the value of `reader.result`
(the data URL, or `null` when the read failed). -/
def onloadend (s : FormState) (b : Batch) (file : File) (result : Option JsString) :
    FormState × Batch :=
  let newPreviews := b.newPreviews ++ [{ name := file.name, type := file.type, data := result }]
  ({ s with filePreviews := b.filePreviews ++ newPreviews }, { b with newPreviews := newPreviews })

/-- The handler `removeFile`. -/
def removeFile (s : FormState) (index : Nat) : FormState :=
  { s with
    attachedFiles := filterWithIndex (fun _ i => i != index) 0 s.attachedFiles
    filePreviews := filterWithIndex (fun _ i => i != index) 0 s.filePreviews }

/-- The handler `handleSubmit`: the next form state and the `onAddNote` calls made. -/
def handleSubmit (s : FormState) : FormState × List NoteRequest :=
  let trimmedTitle := jsTrim s.title
  if !truthy trimmedTitle then
    ({ s with formError := jsLit "Title is required" }, [])
  else
    let note : NoteRequest :=
      { title := trimmedTitle
        description := jsTrim s.description
        files := mapWithIndex (fun file index =>
          { name := file.name, type := file.type, size := file.size,
            data := orNull ((s.filePreviews.get? index).bind (fun q => q.data)) })
          0 s.attachedFiles }
    (FormState.initial, [note])

/-- The handler `handleTitleChange`. -/
def handleTitleChange (s : FormState) (value : JsString) : FormState :=
  let s := { s with title := value }
  if truthy s.formError then { s with formError := [] } else s

/-- The description field's `onChange`. -/
def handleDescriptionChange (s : FormState) (value : JsString) : FormState :=
  { s with description := value }

/-- The expression `isFormValid`. -/
def isFormValid (s : FormState) : Bool := decide ((jsTrim s.title).length > 0)

/-- A mounted form: its state and the closures of the reads in flight. -/
structure Component where
  form : FormState
  batches : List Batch
deriving DecidableEq, Repr

/-- The freshly mounted form. -/
def Component.initial : Component := { form := FormState.initial, batches := [] }

/-- What can happen to a mounted form. `loadend b k result`: the reader in position `k`
among those still in flight of batch `b` fires `loadend` with `reader.result = result`. -/
inductive Event where
  | titleChange (value : JsString)
  | descriptionChange (value : JsString)
  | fileChange (files : List File)
  | removeFile (index : Nat)
  | submit
  | loadend (b k : Nat) (result : Option JsString)
deriving DecidableEq, Repr

/-- One event: the next component and the `onAddNote` calls made during it. -/
def step (c : Component) : Event → Component × List NoteRequest
  | .titleChange v => ({ c with form := handleTitleChange c.form v }, [])
  | .descriptionChange v => ({ c with form := handleDescriptionChange c.form v }, [])
  | .fileChange files =>
    match handleFileChange c.form files with
    | (s, none) => ({ c with form := s }, [])
    | (s, some b) => ({ form := s, batches := c.batches ++ [b] }, [])
  | .removeFile index => ({ c with form := removeFile c.form index }, [])
  | .submit =>
    let r := handleSubmit c.form
    ({ c with form := r.1 }, r.2)
  | .loadend b k result =>
    match c.batches.get? b with
    | none => (c, [])
    | some batch =>
      match batch.readers.get? k with
      | none => (c, [])
      | some file =>
        let r := onloadend c.form { batch with readers := batch.readers.eraseIdx k } file result
        ({ form := r.1, batches := c.batches.set b r.2 }, [])

/-- A sequence of events from `c`: the final component and all `onAddNote` calls, in order. -/
def run (c : Component) : List Event → Component × List NoteRequest
  | [] => (c, [])
  | e :: es =>
    let r := step c e
    let rest := run r.1 es
    (rest.1, r.2 ++ rest.2)

/-! ## App.jsx -/

/-- A stored note: the request's fields plus `id` and `createdAt`. -/
structure Note where
  title : JsString
  description : JsString
  files : List Attachment
  id : Int
  createdAt : JsString
deriving DecidableEq, Repr

/-- The function `addNote`, as the updater it passes to `setNotes`; `now` is the value of
`Date.now()` and `createdAt` the value of `new Date().toISOString()` read by the call. -/
def addNote (prevNotes : List Note) (note : NoteRequest) (now : Int) (createdAt : JsString) :
    List Note :=
  let newNote : Note :=
    { title := note.title, description := note.description, files := note.files,
      id := now, createdAt := createdAt }
  prevNotes ++ [newNote]

/-- The function `deleteNote`, as the updater it passes to `setNotes`. -/
def deleteNote (prevNotes : List Note) (id : Int) : List Note :=
  prevNotes.filter (fun note => note.id != id)

/-- A store operation together with the clock values it reads. -/
inductive StoreOp where
  | add (note : NoteRequest) (now : Int) (createdAt : JsString)
  | delete (id : Int)
deriving DecidableEq, Repr

/-- One store operation. -/
def applyOp (notes : List Note) : StoreOp → List Note
  | .add note now createdAt => addNote notes note now createdAt
  | .delete id => deleteNote notes id

/-- A sequence of store operations, from `notes`. -/
def runStore (notes : List Note) (ops : List StoreOp) : List Note :=
  ops.foldl applyOp notes

/-- The notes the `add` operations of a sequence create, in the order of the calls. -/
def addedNotes : List StoreOp → List Note
  | [] => []
  | .add note now createdAt :: ops =>
    { title := note.title, description := note.description, files := note.files,
      id := now, createdAt := createdAt } :: addedNotes ops
  | .delete _ :: ops => addedNotes ops

/-! ## NoteItem.jsx -/

/-- The constant `MAX_DESC_LENGTH`. -/
def MAX_DESC_LENGTH : Nat := 150

/-- The expression `shouldTruncate`, as a truth value. -/
def shouldTruncate (description : JsString) : Bool :=
  truthy description && decide (description.length > MAX_DESC_LENGTH)

/-- The expression `displayDescription`. -/
def displayDescription (description : JsString) (showModal : Bool) : JsString :=
  if shouldTruncate description && !showModal then
    description.take MAX_DESC_LENGTH ++ jsLit "..."
  else description

/-- The description paragraph of a card: its text and whether the Read More span is there. -/
structure DescriptionView where
  text : JsString
  readMore : Bool
deriving DecidableEq, Repr

/-- The card's description block: rendered only for a truthy description. -/
def cardDescription (description : JsString) (showModal : Bool) : Option DescriptionView :=
  if truthy description then
    some { text := displayDescription description showModal,
           readMore := shouldTruncate description }
  else none

/-- The description text a card shows (nothing when the block is not rendered). -/
def shownText : Option DescriptionView → JsString
  | none => []
  | some v => v.text

/-- Whether a card shows the Read More control. -/
def shownReadMore : Option DescriptionView → Bool
  | none => false
  | some v => v.readMore

/-! ## The staged-files invariant and concrete inputs -/

/-- The bound the form keeps on its staged files: at most five, none above the size limit. -/
def Staged (s : FormState) : Prop :=
  s.attachedFiles.length ≤ 5 ∧ ∀ f ∈ s.attachedFiles, f.size ≤ MAX_FILE_SIZE

/-- An image file. -/
def photoA : File := { name := jsLit "a.png", type := jsLit "image/png", size := 2048 }

/-- A second image file. -/
def photoB : File := { name := jsLit "b.jpg", type := jsLit "image/jpeg", size := 4096 }

/-- A text file. -/
def listTxt : File := { name := jsLit "list.txt", type := jsLit "text/plain", size := 120 }

/-- A file one byte above the size limit. -/
def hugePdf : File :=
  { name := jsLit "huge.pdf", type := jsLit "application/pdf", size := 5 * 1024 * 1024 + 1 }

/-- A form about to be submitted: padded title and description, one staged text file. -/
def draft : FormState :=
  { title := jsLit "  Groceries ", description := jsLit " milk, eggs\n", formError := [],
    attachedFiles := [listTxt],
    filePreviews := [{ name := listTxt.name, type := listTxt.type, data := none }] }

/-- The same form with a title of blanks only. -/
def blankDraft : FormState := { draft with title := jsLit " \t " }

/-- A form with four staged text files. -/
def fourStaged : FormState :=
  { title := [], description := [], formError := [],
    attachedFiles := [listTxt, listTxt, listTxt, listTxt],
    filePreviews := (List.replicate 4 { name := listTxt.name, type := listTxt.type, data := none }) }

/-- A selection of six files, the first of them above the size limit. -/
def sixWithHuge : List File := [hugePdf, listTxt, listTxt, listTxt, listTxt, listTxt]

/-- The data URL read from `photoA`. -/
def payloadA : JsString := jsLit "data:image/png;base64,QQ=="

/-- The data URL read from `photoB`. -/
def payloadB : JsString := jsLit "data:image/jpeg;base64,Qg=="

/-- The scenario up to the submission: title "Groceries", a description of 200 letters a,
one selection of two images followed by a text file, then the two reader completions
`first` and `second`. -/
def groceriesStaged (first second : Event) : List Event :=
  [.titleChange (jsLit "Groceries"), .descriptionChange (List.replicate 200 97),
   .fileChange [photoA, photoB, listTxt], first, second]

/-- The scenario with `photoA` read before `photoB`. -/
def groceriesInOrder : List Event :=
  groceriesStaged (.loadend 0 0 (some payloadA)) (.loadend 0 0 (some payloadB)) ++ [.submit]

/-- The scenario with `photoB` read before `photoA`. -/
def groceriesReversed : List Event :=
  groceriesStaged (.loadend 0 1 (some payloadB)) (.loadend 0 0 (some payloadA)) ++ [.submit]

/-- A note request without attachments. -/
def plainRequest (title : String) : NoteRequest :=
  { title := jsLit title, description := [], files := [] }

/-- Two `addNote` calls that read the same `Date.now()` value. -/
def sameTick : List StoreOp :=
  [.add (plainRequest "first") 1700000000000 (jsLit "2023-11-14T22:13:20.000Z"),
   .add (plainRequest "second") 1700000000000 (jsLit "2023-11-14T22:13:20.000Z")]

/-! ## Auxiliary lemmas -/

theorem truthy_eq_true_iff (s : JsString) : truthy s = true ↔ s ≠ [] := by
  cases s <;> simp [truthy]

theorem jsTrim_eq_nil_of_forall (s : JsString) (h : ∀ c ∈ s, isTrimChar c = true) :
    jsTrim s = [] := by
  have h1 : s.dropWhile isTrimChar = [] := List.dropWhile_eq_nil_iff.mpr h
  simp [jsTrim, h1]

theorem mapWithIndex_length {α β : Type} (f : α → Nat → β) (i : Nat) (xs : List α) :
    (mapWithIndex f i xs).length = xs.length := by
  induction xs generalizing i with
  | nil => rfl
  | cons x xs ih => simp [mapWithIndex, ih]

theorem mapWithIndex_get? {α β : Type} (f : α → Nat → β) (i k : Nat) (xs : List α) :
    (mapWithIndex f i xs).get? k = (xs.get? k).map (fun x => f x (i + k)) := by
  induction xs generalizing i k with
  | nil => simp [mapWithIndex]
  | cons x xs ih =>
    cases k with
    | zero => simp [mapWithIndex]
    | succ k =>
      simp only [mapWithIndex, List.get?_cons_succ, ih]
      congr 1
      funext y
      congr 1
      omega

theorem filterWithIndex_sublist {α : Type} (p : α → Nat → Bool) (i : Nat) (xs : List α) :
    (filterWithIndex p i xs).Sublist xs := by
  induction xs generalizing i with
  | nil => exact List.Sublist.slnil
  | cons x xs ih =>
    unfold filterWithIndex
    split
    · exact (ih (i + 1)).cons₂ x
    · exact (ih (i + 1)).cons x

theorem foldl_processFile_newFiles (files : List File) (acc : Processing) :
    (files.foldl processFile acc).newFiles = acc.newFiles ++ files := by
  induction files generalizing acc with
  | nil => simp
  | cons f fs ih =>
    rw [List.foldl_cons, ih]
    unfold processFile
    split <;> simp

theorem handleFileChange_reject_count (s : FormState) (files : List File)
    (h : s.attachedFiles.length + files.length > 5) :
    handleFileChange s files = ({ s with formError := jsLit "Maximum 5 files allowed" }, none) := by
  simp [handleFileChange, h]

theorem handleFileChange_reject_size (s : FormState) (files : List File)
    (hc : s.attachedFiles.length + files.length ≤ 5) (h : ∃ f ∈ files, f.size > MAX_FILE_SIZE) :
    handleFileChange s files =
      ({ s with formError := jsLit "Each file must be less than 5MB" }, none) := by
  obtain ⟨f, hf, hsz⟩ := h
  have hlt : ¬ (5 < s.attachedFiles.length + files.length) := by omega
  have hpos : 0 < (files.filter (fun file => decide (file.size > MAX_FILE_SIZE))).length := by
    apply List.length_pos_of_mem (a := f)
    simp [List.mem_filter, hf, hsz]
  simp only [handleFileChange, gt_iff_lt, hlt, if_false, hpos, if_true]

theorem handleFileChange_accept (s : FormState) (files : List File)
    (hc : s.attachedFiles.length + files.length ≤ 5) (h : ∀ f ∈ files, f.size ≤ MAX_FILE_SIZE) :
    (handleFileChange s files).1.attachedFiles = s.attachedFiles ++ files := by
  have hlt : ¬ (5 < s.attachedFiles.length + files.length) := by omega
  have hnil : files.filter (fun file => decide (file.size > MAX_FILE_SIZE)) = [] := by
    rw [List.filter_eq_nil_iff]
    intro f hf
    have := h f hf
    simp only [gt_iff_lt, decide_eq_true_eq]
    omega
  simp only [handleFileChange, gt_iff_lt, hlt, if_false, hnil, List.length_nil, lt_self_iff_false]
  split <;> simp [foldl_processFile_newFiles]

theorem handleTitleChange_attachedFiles (s : FormState) (v : JsString) :
    (handleTitleChange s v).attachedFiles = s.attachedFiles := by
  simp only [handleTitleChange]
  split <;> rfl

theorem handleFileChange_staged (s : FormState) (files : List File) (h : Staged s) :
    Staged (handleFileChange s files).1 := by
  by_cases hc : s.attachedFiles.length + files.length ≤ 5
  · by_cases hs : ∃ f ∈ files, f.size > MAX_FILE_SIZE
    · rw [handleFileChange_reject_size s files hc hs]
      exact h
    · have hall : ∀ f ∈ files, f.size ≤ MAX_FILE_SIZE := by
        intro f hf
        by_contra hlt
        exact hs ⟨f, hf, by omega⟩
      unfold Staged
      rw [handleFileChange_accept s files hc hall]
      refine ⟨by simpa using hc, ?_⟩
      intro f hf
      rcases List.mem_append.mp hf with hf | hf
      · exact h.2 f hf
      · exact hall f hf
  · rw [handleFileChange_reject_count s files (by omega)]
    exact h

theorem removeFile_staged (s : FormState) (index : Nat) (h : Staged s) :
    Staged (removeFile s index) := by
  have hsub : (removeFile s index).attachedFiles.Sublist s.attachedFiles :=
    filterWithIndex_sublist _ _ _
  exact ⟨le_trans hsub.length_le h.1, fun f hf => h.2 f (hsub.subset hf)⟩

theorem handleSubmit_staged (s : FormState) (h : Staged s) :
    Staged (handleSubmit s).1 ∧ ∀ n ∈ (handleSubmit s).2, n.files.length ≤ 5 := by
  by_cases ht : truthy (jsTrim s.title) = true
  · simp only [handleSubmit, ht, Bool.not_true, Bool.false_eq_true, if_false]
    refine ⟨⟨by simp [FormState.initial], by simp [FormState.initial]⟩, ?_⟩
    intro n hn
    rw [List.mem_singleton] at hn
    subst hn
    simpa [mapWithIndex_length] using h.1
  · simp only [handleSubmit, ht, Bool.not_false, Bool.not_eq_true] at ht ⊢
    simp only [ht, Bool.not_false, if_true]
    exact ⟨h, by simp⟩

theorem step_staged (c : Component) (e : Event) (h : Staged c.form) :
    Staged (step c e).1.form ∧ ∀ n ∈ (step c e).2, n.files.length ≤ 5 := by
  cases e with
  | titleChange v =>
    refine ⟨?_, by simp [step]⟩
    exact ⟨by simpa [step, handleTitleChange_attachedFiles] using h.1,
      by simpa [step, handleTitleChange_attachedFiles] using h.2⟩
  | descriptionChange v => exact ⟨h, by simp [step]⟩
  | fileChange files =>
    have hf := handleFileChange_staged c.form files h
    rcases hfc : handleFileChange c.form files with ⟨s, _ | b⟩
    · rw [hfc] at hf
      simp only [step, hfc]
      exact ⟨hf, by simp⟩
    · rw [hfc] at hf
      simp only [step, hfc]
      exact ⟨hf, by simp⟩
  | removeFile index => exact ⟨removeFile_staged c.form index h, by simp [step]⟩
  | submit => exact handleSubmit_staged c.form h
  | loadend b k result =>
    rcases hb : c.batches.get? b with _ | batch
    · simp only [step, hb]
      exact ⟨h, by simp⟩
    · rcases hk : batch.readers.get? k with _ | file
      · simp only [step, hb, hk]
        exact ⟨h, by simp⟩
      · simp only [step, hb, hk]
        exact ⟨h, by simp⟩

theorem run_staged (es : List Event) (c : Component) (h : Staged c.form) :
    Staged (run c es).1.form ∧ ∀ n ∈ (run c es).2, n.files.length ≤ 5 := by
  induction es generalizing c with
  | nil => exact ⟨h, by simp [run]⟩
  | cons e es ih =>
    have hs := step_staged c e h
    have hr := ih (step c e).1 hs.1
    refine ⟨hr.1, ?_⟩
    intro n hn
    simp only [run, List.mem_append] at hn
    rcases hn with hn | hn
    · exact hs.2 n hn
    · exact hr.2 n hn

theorem deleteNote_cons (a : Note) (l : List Note) (id : Int) :
    deleteNote (a :: l) id = if a.id = id then deleteNote l id else a :: deleteNote l id := by
  by_cases h : a.id = id <;> simp [deleteNote, List.filter_cons, h]

theorem deleteNote_eq_self (notes : List Note) (id : Int) (h : ∀ n ∈ notes, n.id ≠ id) :
    deleteNote notes id = notes := by
  unfold deleteNote
  rw [List.filter_eq_self]
  intro n hn
  simpa using h n hn

theorem deleteNote_length_of_nodup (notes : List Note) (id : Int)
    (hd : (notes.map (fun n => n.id)).Nodup) (hm : ∃ n ∈ notes, n.id = id) :
    (deleteNote notes id).length + 1 = notes.length := by
  induction notes with
  | nil => obtain ⟨n, hn, _⟩ := hm; cases hn
  | cons a l ih =>
    rw [List.map_cons, List.nodup_cons] at hd
    obtain ⟨n, hn, hid⟩ := hm
    by_cases ha : a.id = id
    · have hl : ∀ m ∈ l, m.id ≠ id := by
        intro m hm hmid
        exact hd.1 (List.mem_map.mpr ⟨m, hm, by rw [hmid, ha]⟩)
      rw [deleteNote_cons, if_pos ha, deleteNote_eq_self l id hl]
      simp
    · have hnl : n ∈ l := by
        rcases List.mem_cons.mp hn with h | h
        · exact absurd (h ▸ hid) ha
        · exact h
      have := ih hd.2 ⟨n, hnl, hid⟩
      rw [deleteNote_cons, if_neg ha, List.length_cons, List.length_cons, this]

theorem runStore_sublist (ops : List StoreOp) (notes : List Note) :
    (runStore notes ops).Sublist (notes ++ addedNotes ops) := by
  induction ops generalizing notes with
  | nil => simp [runStore, addedNotes]
  | cons op ops ih =>
    cases op with
    | add note now createdAt =>
      have := ih (addNote notes note now createdAt)
      simpa [runStore, applyOp, addedNotes, addNote] using this
    | delete id =>
      have h1 := ih (deleteNote notes id)
      have h2 : (deleteNote notes id ++ addedNotes ops).Sublist (notes ++ addedNotes ops) :=
        List.Sublist.append (List.filter_sublist _) (List.Sublist.refl _)
      simpa [runStore, applyOp, addedNotes] using h1.trans h2

/-! ## The form: submission and file selection -/

/-- C1: for a form state whose title is non-empty after trimming and which holds between 0
and 5 staged files, `handleSubmit` calls `onAddNote` exactly once; the note has the trimmed
title, the trimmed description, and a files list as long as `attachedFiles` whose entry at
each index carries the name, type and size of the staged file at that index. -/
theorem handleSubmit_emits_note (s : FormState) (hTitle : jsTrim s.title ≠ [])
    (_hCount : s.attachedFiles.length ≤ 5) :
    ∃ note, (handleSubmit s).2 = [note] ∧ note.title = jsTrim s.title ∧
      note.description = jsTrim s.description ∧
      note.files.length = s.attachedFiles.length ∧
      ∀ i, (note.files.get? i).map (fun a => (a.name, a.type, a.size)) =
        (s.attachedFiles.get? i).map (fun f => (f.name, f.type, f.size)) := by
  have ht : truthy (jsTrim s.title) = true := (truthy_eq_true_iff _).mpr hTitle
  have hs : (handleSubmit s).2 =
      [{ title := jsTrim s.title, description := jsTrim s.description,
         files := mapWithIndex (fun file index =>
           { name := file.name, type := file.type, size := file.size,
             data := orNull ((s.filePreviews.get? index).bind (fun q => q.data)) })
           0 s.attachedFiles }] := by
    simp only [handleSubmit, ht, Bool.not_true, Bool.false_eq_true, if_false]
  refine ⟨_, hs, rfl, rfl, mapWithIndex_length _ _ _, ?_⟩
  intro i
  simp only [mapWithIndex_get?, Option.map_map]
  rfl

/-- Witness for C1 on `draft`. -/
theorem handleSubmit_emits_note_witness :
    jsTrim draft.title ≠ [] ∧ draft.attachedFiles.length ≤ 5 ∧
    ∃ note, (handleSubmit draft).2 = [note] ∧ note.title = jsTrim draft.title ∧
      note.description = jsTrim draft.description ∧
      note.files.length = draft.attachedFiles.length ∧
      ∀ i, (note.files.get? i).map (fun a => (a.name, a.type, a.size)) =
        (draft.attachedFiles.get? i).map (fun f => (f.name, f.type, f.size)) :=
  ⟨by decide, by decide, handleSubmit_emits_note draft (by decide) (by decide)⟩

/-- C2: for a form state whose title is empty or made of whitespace only, `handleSubmit`
makes no `onAddNote` call, sets the form error to "Title is required", and leaves title,
description, `attachedFiles` and `filePreviews` as they were. -/
theorem handleSubmit_blank_title (s : FormState) (h : ∀ c ∈ s.title, isTrimChar c = true) :
    (handleSubmit s).2 = [] ∧
    (handleSubmit s).1.formError = jsLit "Title is required" ∧
    (handleSubmit s).1.title = s.title ∧
    (handleSubmit s).1.description = s.description ∧
    (handleSubmit s).1.attachedFiles = s.attachedFiles ∧
    (handleSubmit s).1.filePreviews = s.filePreviews := by
  have ht : jsTrim s.title = [] := jsTrim_eq_nil_of_forall _ h
  simp [handleSubmit, ht, truthy]

/-- Witness for C2 on `blankDraft`. -/
theorem handleSubmit_blank_title_witness :
    (∀ c ∈ blankDraft.title, isTrimChar c = true) ∧
    (handleSubmit blankDraft).2 = [] ∧
    (handleSubmit blankDraft).1.formError = jsLit "Title is required" ∧
    (handleSubmit blankDraft).1.title = blankDraft.title ∧
    (handleSubmit blankDraft).1.description = blankDraft.description ∧
    (handleSubmit blankDraft).1.attachedFiles = blankDraft.attachedFiles ∧
    (handleSubmit blankDraft).1.filePreviews = blankDraft.filePreviews :=
  ⟨by decide, handleSubmit_blank_title blankDraft (by decide)⟩

/-- C3: when the staged count plus the size of the new selection exceeds 5,
`handleFileChange` leaves `attachedFiles` and `filePreviews` as they were (and starts no
reader), and sets the form error to "Maximum 5 files allowed". -/
theorem handleFileChange_too_many (s : FormState) (files : List File)
    (h : s.attachedFiles.length + files.length > 5) :
    (handleFileChange s files).1.attachedFiles = s.attachedFiles ∧
    (handleFileChange s files).1.filePreviews = s.filePreviews ∧
    (handleFileChange s files).1.formError = jsLit "Maximum 5 files allowed" ∧
    (handleFileChange s files).2 = none := by
  rw [handleFileChange_reject_count s files h]
  exact ⟨rfl, rfl, rfl, rfl⟩

/-- Witness for C3: two more files on top of four staged ones. -/
theorem handleFileChange_too_many_witness :
    fourStaged.attachedFiles.length + [photoA, listTxt].length > 5 ∧
    (handleFileChange fourStaged [photoA, listTxt]).1.attachedFiles = fourStaged.attachedFiles ∧
    (handleFileChange fourStaged [photoA, listTxt]).1.filePreviews = fourStaged.filePreviews ∧
    (handleFileChange fourStaged [photoA, listTxt]).1.formError =
      jsLit "Maximum 5 files allowed" ∧
    (handleFileChange fourStaged [photoA, listTxt]).2 = none :=
  ⟨by decide, handleFileChange_too_many fourStaged [photoA, listTxt] (by decide)⟩

/-- C4 as stated fails: a selection of six files into the empty form contains a file above
5 MiB, yet the form error becomes "Maximum 5 files allowed", because the count check
returns first. -/
theorem handleFileChange_oversize_counterexample :
    (∃ f ∈ sixWithHuge, f.size > 5 * 1024 * 1024) ∧
    (handleFileChange FormState.initial sixWithHuge).1.formError =
      jsLit "Maximum 5 files allowed" ∧
    (handleFileChange FormState.initial sixWithHuge).1.formError ≠
      jsLit "Each file must be less than 5MB" := by
  refine ⟨⟨hugePdf, by decide, by decide⟩, by decide, by decide⟩

/-- C4, amended: when the new selection contains a file larger than 5 MiB,
`handleFileChange` leaves `attachedFiles` and `filePreviews` as they were (and starts no
reader); the form error becomes "Each file must be less than 5MB" when the staged count
plus the selection size is at most 5, and "Maximum 5 files allowed" when it exceeds 5. -/
theorem handleFileChange_oversize (s : FormState) (files : List File)
    (h : ∃ f ∈ files, f.size > 5 * 1024 * 1024) :
    (handleFileChange s files).1.attachedFiles = s.attachedFiles ∧
    (handleFileChange s files).1.filePreviews = s.filePreviews ∧
    (handleFileChange s files).2 = none ∧
    (handleFileChange s files).1.formError =
      (if s.attachedFiles.length + files.length ≤ 5 then jsLit "Each file must be less than 5MB"
       else jsLit "Maximum 5 files allowed") := by
  by_cases hc : s.attachedFiles.length + files.length ≤ 5
  · rw [handleFileChange_reject_size s files hc h, if_pos hc]
    exact ⟨rfl, rfl, rfl, rfl⟩
  · rw [handleFileChange_reject_count s files (by omega), if_neg hc]
    exact ⟨rfl, rfl, rfl, rfl⟩

/-- Witness for the amended C4: the oversized file alone, on top of four staged files. -/
theorem handleFileChange_oversize_witness :
    (∃ f ∈ [hugePdf], f.size > 5 * 1024 * 1024) ∧
    (handleFileChange fourStaged [hugePdf]).1.attachedFiles = fourStaged.attachedFiles ∧
    (handleFileChange fourStaged [hugePdf]).1.filePreviews = fourStaged.filePreviews ∧
    (handleFileChange fourStaged [hugePdf]).2 = none ∧
    (handleFileChange fourStaged [hugePdf]).1.formError =
      (if fourStaged.attachedFiles.length + [hugePdf].length ≤ 5 then
        jsLit "Each file must be less than 5MB"
       else jsLit "Maximum 5 files allowed") :=
  ⟨⟨hugePdf, by decide, by decide⟩,
    handleFileChange_oversize fourStaged [hugePdf] ⟨hugePdf, by decide, by decide⟩⟩

/-- C5: from the freshly mounted form, after every sequence of events (title and
description edits, `handleFileChange`, `removeFile`, `handleSubmit`, and reader
completions) at most 5 files are staged and each staged file has size at most 5 MiB; and
every note passed to `onAddNote` along the way has at most 5 files. -/
theorem staged_files_bounded (es : List Event) :
    (run Component.initial es).1.form.attachedFiles.length ≤ 5 ∧
    (∀ f ∈ (run Component.initial es).1.form.attachedFiles, f.size ≤ 5 * 1024 * 1024) ∧
    (∀ n ∈ (run Component.initial es).2, 0 ≤ n.files.length ∧ n.files.length ≤ 5) := by
  have h0 : Staged Component.initial.form :=
    ⟨by simp [Component.initial, FormState.initial],
     by simp [Component.initial, FormState.initial]⟩
  have hr := run_staged es Component.initial h0
  exact ⟨hr.1.1, hr.1.2, fun n hn => ⟨Nat.zero_le _, hr.2 n hn⟩⟩

/-- C6 fails on the code. Two images followed by a text file are selected into the empty
form, both reads complete, and the form is submitted with title "Groceries". The text
file's `data: null` preview is stored first and the image previews are appended behind it
as the reads complete, while `handleSubmit` pairs previews with files by index. With
`photoA` read first the note's attachments carry: `photoA` null, `photoB` the payload of
`photoA`, the text file the payload of `photoB`. With `photoB` read first: `photoA` null,
`photoB` its own payload, the text file the payload of `photoA`. -/
theorem groceries_attachment_data :
    (run Component.initial
      (groceriesStaged (.loadend 0 0 (some payloadA)) (.loadend 0 0 (some payloadB)))).1.batches.map
        (fun b => b.readers) = [[]] ∧
    (run Component.initial groceriesInOrder).2.map
        (fun n => (n.title, n.files.map (fun a => (a.name, a.type, a.data)))) =
      [(jsLit "Groceries",
        [(photoA.name, jsLit "image/png", none),
         (photoB.name, jsLit "image/jpeg", some payloadA),
         (listTxt.name, jsLit "text/plain", some payloadB)])] ∧
    (run Component.initial groceriesReversed).2.map
        (fun n => (n.title, n.files.map (fun a => (a.name, a.type, a.data)))) =
      [(jsLit "Groceries",
        [(photoA.name, jsLit "image/png", none),
         (photoB.name, jsLit "image/jpeg", some payloadB),
         (listTxt.name, jsLit "text/plain", some payloadA)])] := by
  refine ⟨by decide, by decide, by decide⟩

/-! ## The store -/

/-- C7 fails on the code. Two `addNote` calls that read the same `Date.now()` value leave a
store of 2 notes that both carry that id; `deleteNote` of that id, a filter on
`note.id !== id`, then removes both and leaves the empty store, where the claim says
exactly 2 - 1 = 1 note remains. -/
theorem deleteNote_same_clock_removes_both :
    (runStore [] sameTick).map (fun n => (n.title, n.id)) =
      [(jsLit "first", 1700000000000), (jsLit "second", 1700000000000)] ∧
    (∃ n ∈ runStore [] sameTick, n.id = 1700000000000) ∧
    deleteNote (runStore [] sameTick) 1700000000000 = [] ∧
    runStore [] (sameTick ++ [.delete 1700000000000]) = [] ∧
    (deleteNote (runStore [] sameTick) 1700000000000).length ≠
      (runStore [] sameTick).length - 1 := by
  refine ⟨by decide, ⟨_, List.mem_cons_self _ _, by decide⟩, by decide, by decide, by decide⟩

/-- C8 fails on the code: two `addNote` calls that read the same `Date.now()` value leave
two notes with the same id in the store. -/
theorem addNote_same_clock_ids :
    (runStore [] sameTick).map (fun n => (n.title, n.id)) =
      [(jsLit "first", 1700000000000), (jsLit "second", 1700000000000)] ∧
    ¬ ((runStore [] sameTick).map (fun n => n.id)).Nodup := by
  refine ⟨by decide, by decide⟩

/-- C9: `addNote` returns the previous store followed by exactly one new last note with
the request's title, description and files; `deleteNote` keeps exactly the notes whose id
differs from the given one, in their original relative order; and after every sequence of
`addNote` and `deleteNote` operations from the empty store the stored notes are a
subsequence of the notes added, in the order they were added. -/
theorem store_insertion_order :
    (∀ (notes : List Note) (req : NoteRequest) (now : Int) (createdAt : JsString),
      ∃ n, addNote notes req now createdAt = notes ++ [n] ∧ n.title = req.title ∧
        n.description = req.description ∧ n.files = req.files) ∧
    (∀ (notes : List Note) (id : Int),
      (deleteNote notes id).Sublist notes ∧
      ∀ n, n ∈ deleteNote notes id ↔ (n ∈ notes ∧ n.id ≠ id)) ∧
    (∀ ops : List StoreOp, (runStore [] ops).Sublist (addedNotes ops)) := by
  refine ⟨fun notes req now createdAt => ⟨_, rfl, rfl, rfl, rfl⟩, fun notes id => ⟨?_, ?_⟩, ?_⟩
  · exact List.filter_sublist _
  · intro n
    simp [deleteNote, List.mem_filter]
  · intro ops
    simpa using runStore_sublist ops []

/-! ## The card -/

/-- C10: on a card whose modal is closed, a description longer than 150 code units is shown
as its first 150 code units followed by "..." together with the Read More control, and a
description of at most 150 is shown whole with no Read More control; in particular one of
length 151 is truncated and one of length 150 is shown in full. -/
theorem card_description_truncation (description : JsString) :
    (description.length > 150 →
      shownText (cardDescription description false) = description.take 150 ++ jsLit "..." ∧
      shownReadMore (cardDescription description false) = true) ∧
    (description.length ≤ 150 →
      shownText (cardDescription description false) = description ∧
      shownReadMore (cardDescription description false) = false) ∧
    (description.length = 151 →
      shownText (cardDescription description false) = description.take 150 ++ jsLit "..." ∧
      shownReadMore (cardDescription description false) = true) ∧
    (description.length = 150 →
      shownText (cardDescription description false) = description ∧
      shownReadMore (cardDescription description false) = false) := by
  have hlong : description.length > 150 →
      shownText (cardDescription description false) = description.take 150 ++ jsLit "..." ∧
      shownReadMore (cardDescription description false) = true := by
    intro h
    have hne : truthy description = true := by
      cases description with
      | nil => simp at h
      | cons _ _ => rfl
    simp [cardDescription, displayDescription, shouldTruncate, shownText, shownReadMore,
      MAX_DESC_LENGTH, hne, h]
  have hshort : description.length ≤ 150 →
      shownText (cardDescription description false) = description ∧
      shownReadMore (cardDescription description false) = false := by
    intro h
    have hn : ¬ (description.length > MAX_DESC_LENGTH) := by
      unfold MAX_DESC_LENGTH
      omega
    have hst : shouldTruncate description = false := by
      simp only [shouldTruncate, decide_eq_false hn, Bool.and_false]
    cases description with
    | nil => simp [cardDescription, truthy, shownText, shownReadMore]
    | cons c cs =>
      simp [cardDescription, displayDescription, hst, shownText, shownReadMore, truthy]
  exact ⟨hlong, hshort, fun h => hlong (by omega), fun h => hshort (by omega)⟩

/-- Witness for C10: 151 letters a are cut to 150 and "...", 150 letters a are shown whole. -/
theorem card_description_truncation_witness :
    (shownText (cardDescription (List.replicate 151 97) false) =
        (List.replicate 151 97).take 150 ++ jsLit "..." ∧
      shownReadMore (cardDescription (List.replicate 151 97) false) = true) ∧
    (shownText (cardDescription (List.replicate 150 97) false) = List.replicate 150 97 ∧
      shownReadMore (cardDescription (List.replicate 150 97) false) = false) :=
  ⟨(card_description_truncation (List.replicate 151 97)).2.2.1 (by simp),
   (card_description_truncation (List.replicate 150 97)).2.2.2 (by simp)⟩

end NoteVault
